import Mathlib

/-!
Verification of the kanban-board materialization pipeline of the
`obsidian-kanban-block` plugin, as a shallow embedding of its TypeScript
sources (`src/types.ts`, `src/utils/frontmatter.ts`, `src/utils/validation.ts`,
`src/utils/dataview.ts`, `src/board/BoardParser.ts`, `src/board/QueryExecutor.ts`,
`src/card/CardManager.ts`, `src/board/BoardView.ts`).

Modelling conventions:
* A document's frontmatter (a JS object of key/value pairs) is an association
  list `List (String × String)`; values relevant to every claim are strings.
  JS property read is first-match lookup (`getField`), JS property assignment
  replaces the value in place when the key is present and appends otherwise
  (`setField`), matching JS object insertion-order semantics.
* The wall clock (`new Date().toISOString()`) is passed in explicitly as a
  `now : String` parameter.
* The external Dataview query engine is modelled by its observable behaviour
  (`EngineBehavior`): unavailable, throwing, or returning a result object.
* Host-UI concerns (DOM, drag events, rendering) are outside the model; the
  `render` function models the control flow of `BoardView.render` up to the
  produced column data and error surface.
-/

/-- JS object of string-valued fields (frontmatter / card metadata). -/
abbrev CardMetadata := List (String × String)

/-- First-match property read, `obj[k]` on a JS object. -/
def getField (m : CardMetadata) (k : String) : Option String :=
  (m.find? (fun p => p.1 == k)).map Prod.snd

/-- JS property assignment `obj[k] = v`: replaces in place when the key is
present, appends otherwise. -/
def setField (m : CardMetadata) (k v : String) : CardMetadata :=
  if m.any (fun p => p.1 == k) then
    m.map (fun p => if p.1 == k then (k, v) else p)
  else
    m ++ [(k, v)]

/-- `metadata.status` (undefined when the field is absent). -/
def CardMetadata.status (m : CardMetadata) : Option String :=
  getField m "status"

/-- `ColumnConfig` from `src/types.ts`. -/
structure ColumnConfig where
  name : String
  status : String
  color : Option String
  limit : Option Nat
  collapsed : Option Bool
deriving DecidableEq, Repr

/-- `BoardConfig` from `src/types.ts`. -/
structure BoardConfig where
  type : String
  boardId : String
  columns : List ColumnConfig
  cardTemplate : Option String
  autoRefresh : Bool
  refreshInterval : Nat
deriving DecidableEq, Repr

/-- `CardFile` from `src/types.ts` (the host `TFile` handle is not modelled). -/
structure CardFile where
  path : String
  name : String
deriving DecidableEq, Repr

/-- `CardData` from `src/types.ts`. -/
structure CardData where
  file : CardFile
  metadata : CardMetadata
  title : String
  content : String
deriving DecidableEq, Repr

/-- `KanbanColumn` from `src/types.ts`: one ColumnSpec paired with its cards. -/
structure KanbanColumn where
  config : ColumnConfig
  cards : List CardData
deriving DecidableEq, Repr

/-- The status-match test `card.metadata.status === columnConfig.status` from
`BoardView.groupCards` (an undefined card status matches no column). -/
def cardMatches (c : CardData) (col : ColumnConfig) : Bool :=
  c.metadata.status == some col.status

/-- `BoardView.groupCards` (`src/board/BoardView.ts`): one materialized column
per declared ColumnSpec, holding every loaded card whose status equals that
column's status. -/
def groupCards (config : BoardConfig) (cards : List CardData) : List KanbanColumn :=
  config.columns.map (fun columnConfig =>
    { config := columnConfig
      cards := cards.filter (fun card => cardMatches card columnConfig) })

/-! ## Validation (`src/utils/validation.ts`) -/

/-- A raw column entry as seen by the validator (fields may be absent). -/
structure ValCol where
  name : Option String
  status : Option String
deriving DecidableEq, Repr

/-- The validator's input (`config: any`): the fields it can touch.  A field
is `none` when absent on the raw object. -/
structure ValInput where
  boardId : Option String
  columns : Option (List ValCol)
deriving DecidableEq, Repr

/-- JS truthiness of an optional string (`undefined` and `""` are falsy). -/
def truthyS : Option String → Bool
  | none => false
  | some s => !s.isEmpty

/-- Result shape of `Validator.validateBoardConfig`. -/
structure ValidationResult where
  valid : Bool
  errors : List String
deriving DecidableEq, Repr

/-- Per-column checks of `Validator.validateBoardConfig` (`index` is 0-based,
messages are 1-based as in the source). -/
def columnErrors (index : Nat) (col : ValCol) : List String :=
  (if truthyS col.name then [] else [s!"Column {index + 1} missing name"]) ++
  (if truthyS col.status then [] else [s!"Column {index + 1} missing status value"])

/-- `Validator.validateBoardConfig` (`src/utils/validation.ts`): collects
errors in source push order, `valid` iff no errors. -/
def validateBoardConfig (config : ValInput) : ValidationResult :=
  let e1 : List String :=
    match config.columns with
    | none => ["Board must have columns defined"]
    | some _ => []
  let e2 : List String :=
    match config.columns with
    | some [] => ["Board must have at least one column"]
    | _ => []
  let e3 : List String :=
    match config.columns with
    | some cols => (cols.enum.map (fun p => columnErrors p.1 p.2)).flatten
    | none => []
  let errors := e1 ++ e2 ++ e3
  { valid := errors.isEmpty, errors := errors }

/-- View of a parsed `BoardConfig` as the validator's raw input (every field
present, as produced by `BoardParser.parseBoardConfig`). -/
def toValInput (config : BoardConfig) : ValInput :=
  { boardId := some config.boardId
    columns := some (config.columns.map (fun c => ⟨some c.name, some c.status⟩)) }

/-! ## Frontmatter mutation (`src/utils/frontmatter.ts`) -/

/-- `FrontmatterHelper.updateCardStatus`: inside one
`fileManager.processFrontMatter` read-modify-write, assigns
`frontmatter.status = newStatus` and then
`frontmatter["last-updated"] = new Date().toISOString()` (the clock value is
the `now` parameter). -/
def updateCardStatus (fm : CardMetadata) (newStatus now : String) : CardMetadata :=
  setField (setField fm "status" newStatus) "last-updated" now

/-- A vault document: path, base name, optional frontmatter block, body text. -/
structure Doc where
  path : String
  name : String
  frontmatter : Option CardMetadata
  content : String
deriving DecidableEq, Repr

/-- `CardManager.updateStatus` lifted to the vault: applies
`FrontmatterHelper.updateCardStatus` to the document with the given path via
`processFrontMatter` (which creates an empty frontmatter block first when the
document has none, as the host API does). -/
def updateStatusInStore (docs : List Doc) (path newStatus now : String) : List Doc :=
  docs.map (fun d =>
    if d.path == path then
      { d with frontmatter := some (updateCardStatus (d.frontmatter.getD []) newStatus now) }
    else d)

/-! ## Card loading (`src/card/CardManager.ts`, `src/utils/frontmatter.ts`) -/

/-- Whitespace matched by `\s` inside a single line. -/
def wsChar (c : Char) : Bool :=
  c == ' ' || c == '\t' || c == '\r'

/-- A line matching the `---` frontmatter delimiter (`---` plus trailing
line whitespace, as `^---\s*$` on one line). -/
def isDashLine (s : String) : Bool :=
  s.startsWith "---" && (s.drop 3).toList.all wsChar

/-- Index (from 1) of the closing delimiter line inside the tail of the
document, mirroring the lazy `[\s\S]*?\n---\s*\n` part of the
frontmatter-stripping regex: the first `---` line at position >= 1 of the
tail that is still followed by a newline. -/
def findCloseIdx (ls : List String) : Option Nat :=
  (ls.enum.find? (fun p => decide (1 ≤ p.1) && decide (p.1 + 1 < ls.length) && isDashLine p.2)).map Prod.fst

/-- The frontmatter-stripping step of `CardManager.extractTitle`
(`content.replace(/^---\s*\n[\s\S]*?\n---\s*\n/, "")`), modelled line-wise. -/
def stripFrontmatterBlock (content : String) : String :=
  match content.splitOn "\n" with
  | [] => content
  | first :: rest =>
    if isDashLine first then
      match findCloseIdx rest with
      | some j => String.intercalate "\n" (rest.drop (j + 1))
      | none => content
    else content

/-- One line matched against the heading regex `^#\s+(.+)$`: a `#`, at least
one whitespace character, then the captured text.  When the text after the
whitespace is empty but at least two whitespace characters follow the `#`,
regex backtracking captures the last whitespace character itself. -/
def headingText (line : String) : Option String :=
  if line.startsWith "#" then
    let rest := (line.drop 1).toList
    let ws := rest.takeWhile wsChar
    let body := rest.dropWhile wsChar
    if ws.isEmpty then none
    else if body.isEmpty then
      match ws.reverse with
      | c :: _ :: _ => some (String.mk [c])
      | _ => none
    else some (String.mk body)
  else none

/-- `CardManager.extractTitle`: strip a leading frontmatter block, then the
first heading line's text. -/
def extractTitle (content : String) : Option String :=
  ((stripFrontmatterBlock content).splitOn "\n").findSome? headingText

/-- `FrontmatterHelper.getCardMetadata`: `null` exactly when the file has no
frontmatter block; otherwise the frontmatter's field map.  (The source also
re-lists known fields and defaults `tags` to `[]`; `tags` is a list-valued
field no claim touches and is not modelled.) -/
def getCardMetadata (d : Doc) : Option CardMetadata :=
  d.frontmatter

/-- `CardManager.loadCard`: `null` when `getCardMetadata` is `null`, else the
card record with title `extractTitle(content) || file.basename`. -/
def loadCard (d : Doc) : Option CardData :=
  match getCardMetadata d with
  | none => none
  | some metadata =>
    some { file := { path := d.path, name := d.name }
           metadata := metadata
           title := (extractTitle d.content).getD d.name
           content := d.content }

/-- `CardManager.loadCards`: the source's for-loop, pushing each non-null
`loadCard` result in input order. -/
def loadCards : List Doc → List CardData
  | [] => []
  | d :: ds =>
    match loadCard d with
    | some card => card :: loadCards ds
    | none => loadCards ds

/-! ## Dataview result normalization (`src/utils/dataview.ts`) -/

/-- Engine result values fed to `DataviewHelper.parsePageResults`: identifier
strings, arrays, and objects carrying the optional fields the function reads
(`file.path`, `path`, `values`).  A top-level `null`/`undefined` result is
`Option.none` at the call site. -/
inductive JVal where
  | vstr : String → JVal
  | varr : List JVal → JVal
  | vobj : Option String → Option String → Option JVal → JVal
deriving Repr

/-- JS truthiness of a modelled result value. -/
def JVal.truthy : JVal → Bool
  | .vstr s => !s.isEmpty
  | .varr _ => true
  | .vobj _ _ _ => true

/-- One array element of `parsePageResults`'s `.map` callback: a string is
returned as-is, an object yields `file.path` when truthy, else `path` when
truthy, else `null`. -/
def itemPath : JVal → Option String
  | .vstr s => some s
  | .varr _ => none
  | .vobj filePath path _ =>
    if truthyS filePath then filePath
    else if truthyS path then path
    else none

/-- The `.filter(Boolean)` step applied to one mapped element: `null` and the
empty string are dropped. -/
def keepTruthy (o : Option String) : Option String :=
  o.bind (fun s => if s.isEmpty then none else some s)

/-- `DataviewHelper.parsePageResults` on a non-null result value: arrays are
mapped through `itemPath` and filtered by truthiness; an object with a truthy
`values` field recurses into it; everything else yields `[]`. -/
def parseVal : JVal → List String
  | .vstr _ => []
  | .varr items => items.filterMap (fun it => keepTruthy (itemPath it))
  | .vobj _ _ none => []
  | .vobj _ _ (some v) => if v.truthy then parseVal v else []

/-- `DataviewHelper.parsePageResults` including the leading
`if (!result) return []` null guard. -/
def parsePageResults : Option JVal → List String
  | none => []
  | some v => if v.truthy then parseVal v else []

/-! ## Board parsing (`src/board/BoardParser.ts`) -/

/-- A raw column entry of the board frontmatter, before normalization. -/
structure RawColumn where
  name : Option String
  status : Option String
  color : Option String
  limit : Option Nat
  collapsed : Option Bool
deriving DecidableEq, Repr

/-- The fields `BoardParser.parseBoardConfig` reads from a file's cached
frontmatter (each `none` when absent). -/
structure BoardFrontmatter where
  type : Option String
  boardId : Option String
  columns : Option (List RawColumn)
  cardTemplate : Option String
  autoRefresh : Option Bool
  refreshInterval : Option Nat
deriving DecidableEq, Repr

/-- JS `x || d` on an optional string field (`undefined` and `""` fall back). -/
def jsOrStr (o : Option String) (d : String) : String :=
  match o with
  | none => d
  | some s => if s.isEmpty then d else s

/-- `BoardParser.isBoardFile`: `cache?.frontmatter?.type === "kanban-board"`. -/
def isBoardFile (cache : Option BoardFrontmatter) : Bool :=
  match cache with
  | none => false
  | some fm => fm.type == some "kanban-board"

/-- `BoardParser.parseBoardConfig`: `null` for non-board files; otherwise
normalizes missing `columns` to `[]` and defaults each raw column entry
(`name || "Unnamed"`, `status || ""`, `collapsed ?? false`), plus
`board-id || ""`, `auto-refresh ?? true`, `refresh-interval ?? 30`. -/
def parseBoardConfig (cache : Option BoardFrontmatter) : Option BoardConfig :=
  if !isBoardFile cache then none
  else
    match cache with
    | none => none
    | some fm =>
      some { type := "kanban-board"
             boardId := jsOrStr fm.boardId ""
             columns := (fm.columns.getD []).map (fun col =>
               { name := jsOrStr col.name "Unnamed"
                 status := jsOrStr col.status ""
                 color := col.color
                 limit := col.limit
                 collapsed := col.collapsed.getD false })
             cardTemplate := fm.cardTemplate
             autoRefresh := fm.autoRefresh.getD true
             refreshInterval := fm.refreshInterval.getD 30 }

/-! ## Query execution (`src/utils/dataview.ts`, `src/board/QueryExecutor.ts`) -/

/-- Shape of `DataviewQueryResult` from `src/types.ts`. -/
structure DataviewQueryResult where
  successful : Bool
  value : Option JVal
  error : Option String
deriving Repr

/-- Observable behaviour of the external Dataview engine for one query:
plugin missing, `api.query` throwing, or `api.query` resolving to a result
object. -/
inductive EngineBehavior where
  | unavailable
  | throws : String → EngineBehavior
  | returns : Bool → Option JVal → Option String → EngineBehavior
deriving Repr

/-- `DataviewHelper.executeQuery`: an unavailable plugin and a thrown engine
error are both converted to an unsuccessful result value (the thrown message
is preserved); an engine result object is passed through field by field. -/
def DataviewHelper.executeQuery : EngineBehavior → DataviewQueryResult
  | .unavailable =>
    { successful := false, value := none
      error := some "Dataview plugin is not installed or enabled" }
  | .throws msg => { successful := false, value := none, error := some msg }
  | .returns successful value e => { successful := successful, value := value, error := e }

/-- `QueryExecutor.getFilesFromPaths`: resolve each path against the vault in
order, skipping paths that resolve to nothing. -/
def getFilesFromPaths (docs : List Doc) (paths : List String) : List Doc :=
  paths.filterMap (fun path => docs.find? (fun d => d.path == path))

/-- `QueryExecutor.executeQuery`: on an unsuccessful result, log the failure
reason and return no cards; otherwise normalize the result value to paths,
resolve them and load the cards.  The second component is the diagnostic
passed to `console.error` on the failure branch. -/
def QueryExecutor.executeQuery (engine : EngineBehavior) (docs : List Doc) :
    List CardData × Option String :=
  let result := DataviewHelper.executeQuery engine
  if result.successful = false then
    ([], result.error)
  else
    let filePaths := parsePageResults result.value
    let files := getFilesFromPaths docs filePaths
    (loadCards files, none)

/-! ## Board rendering control flow (`src/board/BoardView.ts`) -/

/-- Outcome of `BoardView.render`: either the validation-error panel, or a
rendered board (its materialized columns plus the query diagnostic logged
during loading, if any). -/
inductive RenderResult where
  | configError : List String → RenderResult
  | board : List KanbanColumn → Option String → RenderResult
deriving DecidableEq, Repr

/-- A render outcome together with whether the load pipeline (and hence the
query engine) was entered at all. -/
structure RenderTrace where
  result : RenderResult
  queryEngineInvoked : Bool
deriving DecidableEq, Repr

/-- `BoardView.render`: validate the config; when invalid, show the error
list and return without loading anything; otherwise load cards through
`QueryExecutor.executeQuery` and group them into columns. -/
def render (config : BoardConfig) (engine : EngineBehavior) (docs : List Doc) :
    RenderTrace :=
  let validation := validateBoardConfig (toValInput config)
  if validation.valid = false then
    { result := .configError validation.errors, queryEngineInvoked := false }
  else
    let loaded := QueryExecutor.executeQuery engine docs
    { result := .board (groupCards config loaded.1) loaded.2
      queryEngineInvoked := true }

/-! ## Helper lemmas -/

theorem getField_setField_self (m : CardMetadata) (k v : String) :
    getField (setField m k v) k = some v := by
  unfold getField setField
  split
  next h =>
    rw [List.find?_map]
    have hf : ((fun p : String × String => p.1 == k) ∘
        (fun p => if p.1 == k then (k, v) else p)) = (fun p => p.1 == k) := by
      funext p
      by_cases hp : p.1 = k <;> simp [hp]
    rw [hf]
    obtain ⟨x, hx, hpx⟩ := List.any_eq_true.mp h
    cases hfind : m.find? (fun p => p.1 == k) with
    | none =>
      rw [List.find?_eq_none] at hfind
      exact absurd hpx (hfind x hx)
    | some p₀ =>
      have hp₀ : p₀.1 = k := by simpa using List.find?_some hfind
      simp [hp₀]
  next h =>
    rw [List.find?_append]
    have h0 : m.any (fun p => p.1 == k) = false := Bool.eq_false_iff.mpr h
    have h1 : m.find? (fun p => p.1 == k) = none := by
      rw [List.find?_eq_none]
      intro x hx
      simpa using List.any_eq_false.mp h0 x hx
    simp [h1, List.find?]

theorem getField_setField_other (m : CardMetadata) (k v q : String) (hq : q ≠ k) :
    getField (setField m k v) q = getField m q := by
  unfold getField setField
  split
  next h =>
    rw [List.find?_map]
    have hf : ((fun p : String × String => p.1 == q) ∘
        (fun p => if p.1 == k then (k, v) else p)) = (fun p => p.1 == q) := by
      funext p
      by_cases hp : p.1 = k
      · subst hp
        simp [Ne.symm hq]
      · simp [hp]
    rw [hf]
    cases hfind : m.find? (fun p => p.1 == q) with
    | none => simp
    | some p₀ =>
      have hp₀ : p₀.1 = q := by simpa using List.find?_some hfind
      have : p₀.1 ≠ k := hp₀ ▸ hq
      simp [this]
  next h =>
    rw [List.find?_append]
    have hkq : (k == q) = false := beq_eq_false_iff_ne.mpr (Ne.symm hq)
    have h2 : ([(k, v)].find? (fun p => p.1 == q)) = none := by
      simp [List.find?, hkq]
    cases hfind : m.find? (fun p => p.1 == q) <;> simp [h2]

theorem getField_updateCardStatus_status (fm : CardMetadata) (s now : String) :
    getField (updateCardStatus fm s now) "status" = some s := by
  unfold updateCardStatus
  rw [getField_setField_other _ _ _ _ (by decide)]
  exact getField_setField_self fm "status" s

theorem getField_updateCardStatus_lastUpdated (fm : CardMetadata) (s now : String) :
    getField (updateCardStatus fm s now) "last-updated" = some now := by
  unfold updateCardStatus
  exact getField_setField_self _ "last-updated" now

theorem getField_updateCardStatus_other (fm : CardMetadata) (s now q : String)
    (hq1 : q ≠ "status") (hq2 : q ≠ "last-updated") :
    getField (updateCardStatus fm s now) q = getField fm q := by
  unfold updateCardStatus
  rw [getField_setField_other _ _ _ _ hq2, getField_setField_other _ _ _ _ hq1]

theorem loadCards_eq_filterMap (ds : List Doc) : loadCards ds = ds.filterMap loadCard := by
  induction ds with
  | nil => rfl
  | cons d t ih => cases h : loadCard d <;> simp [loadCards, List.filterMap_cons, h, ih]

theorem groupCards_length (config : BoardConfig) (cards : List CardData) :
    (groupCards config cards).length = config.columns.length := by
  simp [groupCards]

theorem groupCards_map_config (config : BoardConfig) (cards : List CardData) :
    (groupCards config cards).map KanbanColumn.config = config.columns := by
  have h : (KanbanColumn.config ∘ fun columnConfig : ColumnConfig =>
      ({ config := columnConfig
         cards := cards.filter (fun card => cardMatches card columnConfig) } : KanbanColumn)) = id := by
    funext col
    rfl
  rw [groupCards, List.map_map, h, List.map_id]

theorem mem_cards_of_mem_groupCards (config : BoardConfig) (cards : List CardData)
    (kcol : KanbanColumn) (hk : kcol ∈ groupCards config cards) (c : CardData) :
    c ∈ kcol.cards ↔ c ∈ cards ∧ cardMatches c kcol.config = true := by
  obtain ⟨col, hcol, rfl⟩ := List.mem_map.mp hk
  simp [List.mem_filter]

theorem sum_filter_cons (cols : List ColumnConfig) (x : CardData) (cs : List CardData) :
    (cols.map (fun col => ((x :: cs).filter (fun c => cardMatches c col)).length)).sum
      = (cols.filter (fun col => cardMatches x col)).length
        + (cols.map (fun col => (cs.filter (fun c => cardMatches c col)).length)).sum := by
  induction cols with
  | nil => simp
  | cons col rest ih =>
    rw [List.map_cons, List.sum_cons, ih]
    cases h : cardMatches x col <;>
      simp [List.filter_cons, h] <;> omega

theorem sum_groupCards_counts (cols : List ColumnConfig) (cards : List CardData)
    (h : ∀ c ∈ cards, (cols.filter (fun col => cardMatches c col)).length = 1) :
    (cols.map (fun col => (cards.filter (fun c => cardMatches c col)).length)).sum
      = cards.length := by
  induction cards with
  | nil => simp
  | cons x cs ih =>
    rw [sum_filter_cons, h x (List.mem_cons_self x cs),
      ih (fun c hc => h c (List.mem_cons_of_mem _ hc))]
    simp [Nat.add_comm]

theorem columnErrors_flatten_nil (n : Nat) (cols : List ValCol)
    (h : ∀ col ∈ cols, truthyS col.name = true ∧ truthyS col.status = true) :
    ((List.enumFrom n cols).map (fun p => columnErrors p.1 p.2)).flatten = [] := by
  induction cols generalizing n with
  | nil => rfl
  | cons c t ih =>
    have hc := h c (List.mem_cons_self c t)
    simp only [List.enumFrom, List.map_cons, List.flatten_cons, columnErrors, hc.1, hc.2,
      if_true, List.nil_append]
    exact ih (n + 1) (fun col hcol => h col (List.mem_cons_of_mem _ hcol))

theorem find?_updateStatusInStore (docs : List Doc) (p s now q : String) :
    (updateStatusInStore docs p s now).find? (fun d => d.path == q)
      = (docs.find? (fun d => d.path == q)).map (fun d =>
          if d.path == p then
            { d with frontmatter := some (updateCardStatus (d.frontmatter.getD []) s now) }
          else d) := by
  unfold updateStatusInStore
  rw [List.find?_map]
  have hf : ((fun d : Doc => d.path == q) ∘ (fun d =>
      if d.path == p then
        { d with frontmatter := some (updateCardStatus (d.frontmatter.getD []) s now) }
      else d)) = (fun d : Doc => d.path == q) := by
    funext d
    by_cases hd : d.path = p <;> simp [hd]
  rw [hf]

theorem mem_updateStatusInStore_done (docs : List Doc) (p s now : String) (d : Doc)
    (hd : d ∈ updateStatusInStore docs p s now) (hp : d.path = p) :
    ∃ fm, d.frontmatter = some fm ∧ fm.status = some s := by
  obtain ⟨d₀, hd₀, rfl⟩ := List.mem_map.mp hd
  by_cases h0 : d₀.path = p
  · simp only [h0, beq_self_eq_true, if_true]
    exact ⟨_, rfl, getField_updateCardStatus_status _ s now⟩
  · have : (d₀.path == p) = false := beq_eq_false_iff_ne.mpr h0
    rw [this] at hp ⊢
    simp at hp
    exact absurd hp h0

/-! ## Concrete fixtures for witnesses and counterexamples -/

/-- A "To do" column. -/
def colTodo : ColumnConfig := ⟨"Todo", "todo", none, none, none⟩

/-- A "Done" column. -/
def colDone : ColumnConfig := ⟨"Done", "done", none, none, none⟩

/-- A second column that duplicates the "todo" status. -/
def colTodoB : ColumnConfig := ⟨"Also Todo", "todo", none, none, none⟩

/-- A two-column board with distinct statuses. -/
def cfgTD : BoardConfig := ⟨"kanban-board", "b1", [colTodo, colDone], none, true, 30⟩

/-- A board with two columns that share the status `"todo"`. -/
def cfgDup : BoardConfig := ⟨"kanban-board", "b1", [colTodo, colTodoB], none, true, 30⟩

/-- A board whose columns list is empty. -/
def cfgEmpty : BoardConfig := ⟨"kanban-board", "b1", [], none, true, 30⟩

/-- A card whose status is `"todo"`. -/
def cardT : CardData := ⟨⟨"t.md", "t"⟩, [("status", "todo")], "t", ""⟩

/-- A card whose status is `"done"`. -/
def cardD : CardData := ⟨⟨"d.md", "d"⟩, [("status", "done")], "d", ""⟩

/-! ## Claims -/

/-- C1 counterexample: with two ColumnSpecs that both carry status `"todo"`,
a card with status `"todo"` is materialized into BOTH columns, not only the
first-declared one — `BoardView.groupCards` filters each column
independently and performs no first-match deduplication. -/
theorem c1_counterexample :
    (groupCards cfgDup [cardT]).map KanbanColumn.cards = [[cardT], [cardT]] := by
  decide

/-- C1 amended: materialization assigns each loaded card to every
materialized column whose status equals the card's status (so a card is in at
most one column only when no two columns share its status): membership of a
card in a materialized column holds exactly when the card is among the loaded
cards and its status equals that column's status. -/
theorem c1_amended (config : BoardConfig) (cards : List CardData)
    (kcol : KanbanColumn) (hk : kcol ∈ groupCards config cards) (c : CardData) :
    c ∈ kcol.cards ↔ c ∈ cards ∧ c.metadata.status = some kcol.config.status := by
  rw [mem_cards_of_mem_groupCards config cards kcol hk c]
  simp [cardMatches]

/-- C1 amended, witness at a concrete board: the duplicate-status board and
its second column. -/
theorem c1_amended_witness :
    (⟨colTodoB, [cardT]⟩ : KanbanColumn) ∈ groupCards cfgDup [cardT] ∧
    (cardT ∈ (⟨colTodoB, [cardT]⟩ : KanbanColumn).cards ↔
      cardT ∈ [cardT] ∧
        cardT.metadata.status = some (⟨colTodoB, [cardT]⟩ : KanbanColumn).config.status) :=
  ⟨by decide, c1_amended cfgDup [cardT] ⟨colTodoB, [cardT]⟩ (by decide) cardT⟩

/-- C2: when every loaded card's status matches exactly one column,
materialization yields exactly one column per ColumnSpec in declared order,
all cards have a matching status, the per-column counts sum to the number of
cards with a matching status (here all of them), and each card is a member of
exactly one materialized column. -/
theorem c2_exact_partition (config : BoardConfig) (cards : List CardData)
    (h : ∀ c ∈ cards, (config.columns.filter (fun col => cardMatches c col)).length = 1) :
    (groupCards config cards).length = config.columns.length ∧
    (groupCards config cards).map KanbanColumn.config = config.columns ∧
    cards.filter (fun c => config.columns.any (fun col => cardMatches c col)) = cards ∧
    ((groupCards config cards).map (fun k => k.cards.length)).sum = cards.length ∧
    ∀ c ∈ cards, (groupCards config cards).countP (fun k => decide (c ∈ k.cards)) = 1 := by
  refine ⟨groupCards_length config cards, groupCards_map_config config cards, ?_, ?_, ?_⟩
  · rw [List.filter_eq_self]
    intro c hc
    have h1 := h c hc
    rcases hfe : config.columns.filter (fun col => cardMatches c col) with _ | ⟨col, rest⟩
    · rw [hfe] at h1
      simp at h1
    · have hcolmem : col ∈ config.columns.filter (fun col => cardMatches c col) := by
        rw [hfe]
        exact List.mem_cons_self col rest
      have hm := List.mem_filter.mp hcolmem
      exact List.any_eq_true.mpr ⟨col, hm.1, hm.2⟩
  · rw [groupCards, List.map_map]
    have heq : ((fun k : KanbanColumn => k.cards.length) ∘ fun columnConfig =>
        { config := columnConfig
          cards := cards.filter (fun card => cardMatches card columnConfig) })
        = fun col => (cards.filter (fun c => cardMatches c col)).length := rfl
    rw [heq]
    exact sum_groupCards_counts config.columns cards h
  · intro c hc
    rw [groupCards, List.countP_map]
    have hcongr : ∀ col ∈ config.columns,
        ((fun k : KanbanColumn => decide (c ∈ k.cards)) ∘ fun columnConfig =>
          { config := columnConfig
            cards := cards.filter (fun card => cardMatches card columnConfig) }) col = true
        ↔ cardMatches c col = true := by
      intro col hcol
      simp [List.mem_filter, hc]
    rw [List.countP_congr hcongr, List.countP_eq_length_filter]
    exact h c hc

/-- C2, witness: the two-column board with one `"todo"` and one `"done"`
card. -/
theorem c2_exact_partition_witness :
    (∀ c ∈ [cardT, cardD],
      (cfgTD.columns.filter (fun col => cardMatches c col)).length = 1) ∧
    ((groupCards cfgTD [cardT, cardD]).length = cfgTD.columns.length ∧
      (groupCards cfgTD [cardT, cardD]).map KanbanColumn.config = cfgTD.columns ∧
      List.filter (fun c => cfgTD.columns.any (fun col => cardMatches c col)) [cardT, cardD]
        = [cardT, cardD] ∧
      ((groupCards cfgTD [cardT, cardD]).map (fun k => k.cards.length)).sum
        = ([cardT, cardD] : List CardData).length ∧
      ∀ c ∈ [cardT, cardD],
        (groupCards cfgTD [cardT, cardD]).countP (fun k => decide (c ∈ k.cards)) = 1) :=
  ⟨by decide, c2_exact_partition cfgTD [cardT, cardD] (by decide)⟩

/-- C5: a move writes `metadata.status = newStatus`, stamps `last-updated`
with the current clock value, and leaves every other metadata field of the
document unchanged — the mutation passed to the store's read-modify-write
touches exactly those two fields. -/
theorem c5_move_frame (fm : CardMetadata) (newStatus now k : String)
    (h1 : k ≠ "status") (h2 : k ≠ "last-updated") :
    getField (updateCardStatus fm newStatus now) "status" = some newStatus ∧
    getField (updateCardStatus fm newStatus now) "last-updated" = some now ∧
    getField (updateCardStatus fm newStatus now) k = getField fm k :=
  ⟨getField_updateCardStatus_status fm newStatus now,
   getField_updateCardStatus_lastUpdated fm newStatus now,
   getField_updateCardStatus_other fm newStatus now k h1 h2⟩

/-- C5, witness: moving a card with a `priority` field to `"done"` updates
`status` and `last-updated` and leaves `priority` untouched. -/
theorem c5_move_frame_witness :
    (("priority" : String) ≠ "status" ∧ ("priority" : String) ≠ "last-updated") ∧
    (getField (updateCardStatus [("status", "todo"), ("priority", "high")] "done" "2026-01-01") "status"
        = some "done" ∧
      getField (updateCardStatus [("status", "todo"), ("priority", "high")] "done" "2026-01-01") "last-updated"
        = some "2026-01-01" ∧
      getField (updateCardStatus [("status", "todo"), ("priority", "high")] "done" "2026-01-01") "priority"
        = getField [("status", "todo"), ("priority", "high")] "priority") :=
  ⟨⟨by decide, by decide⟩,
   c5_move_frame [("status", "todo"), ("priority", "high")] "done" "2026-01-01" "priority"
     (by decide) (by decide)⟩

/-- C3 counterexample: with a valid one-relevant-column board and an engine
that throws, the rendered board's column set is NOT empty — the board still
materializes every declared column (each with no cards), so "returns an empty
column set" fails as stated. -/
theorem c3_counterexample :
    (render cfgTD (.throws "boom") []).result
      = .board [⟨colTodo, []⟩, ⟨colDone, []⟩] (some "boom") ∧
    ([⟨colTodo, []⟩, ⟨colDone, []⟩] : List KanbanColumn) ≠ [] := by
  decide

/-- C3 amended: when the query engine throws, or resolves but reports
failure, query execution returns an explicit failure value carrying the
underlying message (never propagating a fault), and materialization proceeds
with zero cards: every declared column is produced with an empty card list
(the board renders empty rather than faulting) and the failure reason is
recorded for diagnostics. -/
theorem c3_amended (config : BoardConfig) (msg : String) (value : Option JVal)
    (docs : List Doc)
    (hvalid : (validateBoardConfig (toValInput config)).valid = true) :
    DataviewHelper.executeQuery (.throws msg)
      = { successful := false, value := none, error := some msg } ∧
    DataviewHelper.executeQuery (.returns false value (some msg))
      = { successful := false, value := value, error := some msg } ∧
    QueryExecutor.executeQuery (.throws msg) docs = ([], some msg) ∧
    QueryExecutor.executeQuery (.returns false value (some msg)) docs = ([], some msg) ∧
    (render config (.throws msg) docs).result
      = .board (config.columns.map (fun col => ⟨col, []⟩)) (some msg) ∧
    (render config (.returns false value (some msg)) docs).result
      = .board (config.columns.map (fun col => ⟨col, []⟩)) (some msg) := by
  refine ⟨rfl, rfl, rfl, rfl, ?_, ?_⟩
  · unfold render
    simp only [hvalid, Bool.true_eq_false, if_false]
    simp [QueryExecutor.executeQuery, DataviewHelper.executeQuery, groupCards]
  · unfold render
    simp only [hvalid, Bool.true_eq_false, if_false]
    simp [QueryExecutor.executeQuery, DataviewHelper.executeQuery, groupCards]

/-- C3 amended, witness: the two-column board against a throwing engine and
against an engine that resolves with an unsuccessful result. -/
theorem c3_amended_witness :
    (validateBoardConfig (toValInput cfgTD)).valid = true ∧
    (DataviewHelper.executeQuery (.throws "boom")
        = { successful := false, value := none, error := some "boom" } ∧
      DataviewHelper.executeQuery (.returns false none (some "boom"))
        = { successful := false, value := none, error := some "boom" } ∧
      QueryExecutor.executeQuery (.throws "boom") [] = ([], some "boom") ∧
      QueryExecutor.executeQuery (.returns false none (some "boom")) [] = ([], some "boom") ∧
      (render cfgTD (.throws "boom") []).result
        = .board (cfgTD.columns.map (fun col => ⟨col, []⟩)) (some "boom") ∧
      (render cfgTD (.returns false none (some "boom")) []).result
        = .board (cfgTD.columns.map (fun col => ⟨col, []⟩)) (some "boom")) :=
  ⟨by decide, c3_amended cfgTD "boom" none [] (by decide)⟩

/-- C4: a BoardConfig with zero columns fails validation with an error whose
text contains "must have at least one column", `BoardView.render`
short-circuits to the error panel, and the query engine is never invoked. -/
theorem c4_empty_columns (config : BoardConfig) (h : config.columns = [])
    (engine : EngineBehavior) (docs : List Doc) :
    (validateBoardConfig (toValInput config)).valid = false ∧
    (∃ msg ∈ (validateBoardConfig (toValInput config)).errors,
      List.IsInfix ("must have at least one column".toList) msg.toList) ∧
    (render config engine docs).result
      = .configError (validateBoardConfig (toValInput config)).errors ∧
    (render config engine docs).queryEngineInvoked = false := by
  have hval : validateBoardConfig (toValInput config)
      = { valid := false, errors := ["Board must have at least one column"] } := by
    simp [toValInput, h, validateBoardConfig]
  refine ⟨by rw [hval], ?_, ?_, ?_⟩
  · rw [hval]
    exact ⟨"Board must have at least one column",
      List.mem_cons_self _ _, by decide⟩
  · unfold render
    rw [hval]
    rfl
  · unfold render
    rw [hval]
    rfl


/-- C4, witness: the zero-column board against an arbitrary throwing engine. -/
theorem c4_empty_columns_witness :
    cfgEmpty.columns = [] ∧
    ((validateBoardConfig (toValInput cfgEmpty)).valid = false ∧
      (∃ msg ∈ (validateBoardConfig (toValInput cfgEmpty)).errors,
        List.IsInfix ("must have at least one column".toList) msg.toList) ∧
      (render cfgEmpty (.throws "q") []).result
        = .configError (validateBoardConfig (toValInput cfgEmpty)).errors ∧
      (render cfgEmpty (.throws "q") []).queryEngineInvoked = false) :=
  ⟨rfl, c4_empty_columns cfgEmpty rfl (.throws "q") []⟩

theorem loadCard_path (d : Doc) (c : CardData) (h : loadCard d = some c) :
    c.file.path = d.path := by
  unfold loadCard getCardMetadata at h
  cases hf : d.frontmatter with
  | none =>
    rw [hf] at h
    exact Option.noConfusion h
  | some fm =>
    rw [hf] at h
    injection h with h
    subst h
    rfl

theorem loadCard_metadata (d : Doc) (c : CardData) (h : loadCard d = some c) :
    ∃ fm, d.frontmatter = some fm ∧ c.metadata = fm := by
  unfold loadCard getCardMetadata at h
  cases hf : d.frontmatter with
  | none =>
    rw [hf] at h
    exact Option.noConfusion h
  | some fm =>
    rw [hf] at h
    injection h with h
    subst h
    exact ⟨fm, rfl, rfl⟩

/-- C6: a card selected by the board's query and moved to `"done"` is, after
re-materialization, a member of every column whose status is `"done"` and
absent from every column whose status is different — in particular it leaves
its prior column's membership. -/
theorem c6_move_roundtrip (docs : List Doc) (paths : List String) (p now : String)
    (config : BoardConfig) (hp : p ∈ paths) (hres : ∃ d ∈ docs, d.path = p) :
    ∀ kcol ∈ groupCards config
      (loadCards (getFilesFromPaths (updateStatusInStore docs p "done" now) paths)),
      (kcol.config.status = "done" → ∃ c ∈ kcol.cards, c.file.path = p) ∧
      (kcol.config.status ≠ "done" → ∀ c ∈ kcol.cards, c.file.path ≠ p) := by
  intro kcol hk
  obtain ⟨d0, hd0, hd0p⟩ := hres
  have hsome : (docs.find? (fun d => d.path == p)).isSome := by
    rw [List.find?_isSome]
    exact ⟨d0, hd0, by simp [hd0p]⟩
  obtain ⟨dd, hdd⟩ := Option.isSome_iff_exists.mp hsome
  have hddp : dd.path = p := by simpa using List.find?_some hdd
  have hfind2 : (updateStatusInStore docs p "done" now).find? (fun d => d.path == p)
      = some { dd with
          frontmatter := some (updateCardStatus (dd.frontmatter.getD []) "done" now) } := by
    rw [find?_updateStatusInStore, hdd]
    simp [hddp]
  have hc2files : ({ dd with
      frontmatter := some (updateCardStatus (dd.frontmatter.getD []) "done" now) } : Doc)
      ∈ getFilesFromPaths (updateStatusInStore docs p "done" now) paths := by
    unfold getFilesFromPaths
    exact List.mem_filterMap.mpr ⟨p, hp, hfind2⟩
  have hc2mem : ∃ c2 ∈ loadCards
      (getFilesFromPaths (updateStatusInStore docs p "done" now) paths),
      c2.file.path = p ∧ c2.metadata.status = some "done" := by
    refine ⟨⟨⟨dd.path, dd.name⟩, updateCardStatus (dd.frontmatter.getD []) "done" now,
        (extractTitle dd.content).getD dd.name, dd.content⟩, ?_, ?_, ?_⟩
    · rw [loadCards_eq_filterMap]
      exact List.mem_filterMap.mpr ⟨_, hc2files, rfl⟩
    · exact hddp
    · exact getField_updateCardStatus_status _ "done" now
  have hdone : ∀ c ∈ loadCards (getFilesFromPaths (updateStatusInStore docs p "done" now) paths),
      c.file.path = p → c.metadata.status = some "done" := by
    intro c hc hcp
    rw [loadCards_eq_filterMap] at hc
    obtain ⟨f, hf, hfl⟩ := List.mem_filterMap.mp hc
    have hfp : f.path = p := by
      rw [← loadCard_path f c hfl]
      exact hcp
    have hfmem : f ∈ updateStatusInStore docs p "done" now := by
      unfold getFilesFromPaths at hf
      obtain ⟨q, _, hfind⟩ := List.mem_filterMap.mp hf
      exact List.mem_of_find?_eq_some hfind
    obtain ⟨fm, hfm, hfmstatus⟩ :=
      mem_updateStatusInStore_done docs p "done" now f hfmem hfp
    obtain ⟨fm2, hfm2, hcfm⟩ := loadCard_metadata f c hfl
    rw [hfm] at hfm2
    injection hfm2 with hfm2
    rw [hcfm, ← hfm2]
    exact hfmstatus
  rw [groupCards] at hk
  obtain ⟨col, hcol, rfl⟩ := List.mem_map.mp hk
  constructor
  · intro hdonecol
    obtain ⟨c2, hc2in, hc2path, hc2st⟩ := hc2mem
    refine ⟨c2, ?_, hc2path⟩
    rw [List.mem_filter]
    refine ⟨hc2in, ?_⟩
    simp [cardMatches, hc2st]
    exact hdonecol.symm
  · intro hne c hcmem hcp
    rw [List.mem_filter] at hcmem
    have hst := hdone c hcmem.1 hcp
    have hmatch : cardMatches c col = true := hcmem.2
    rw [cardMatches, hst] at hmatch
    simp at hmatch
    exact hne hmatch.symm

/-- C6, witness: one stored `"todo"` document selected by the query, moved to
`"done"`, on the two-column board. -/
theorem c6_move_roundtrip_witness :
    ("a.md" ∈ ["a.md"] ∧
      ∃ d ∈ [(⟨"a.md", "a", some [("status", "todo")], ""⟩ : Doc)], d.path = "a.md") ∧
    ∀ kcol ∈ groupCards cfgTD
      (loadCards (getFilesFromPaths
        (updateStatusInStore [(⟨"a.md", "a", some [("status", "todo")], ""⟩ : Doc)]
          "a.md" "done" "2026-01-01") ["a.md"])),
      (kcol.config.status = "done" → ∃ c ∈ kcol.cards, c.file.path = "a.md") ∧
      (kcol.config.status ≠ "done" → ∀ c ∈ kcol.cards, c.file.path ≠ "a.md") :=
  ⟨⟨by decide, by decide⟩,
   c6_move_roundtrip [(⟨"a.md", "a", some [("status", "todo")], ""⟩ : Doc)] ["a.md"]
     "a.md" "2026-01-01" cfgTD (by decide) (by decide)⟩

theorem filterMap_eq_self_of {α : Type} (f : α → Option α) (l : List α)
    (h : ∀ a ∈ l, f a = some a) : l.filterMap f = l := by
  induction l with
  | nil => rfl
  | cons a t ih =>
    rw [List.filterMap_cons, h a (List.mem_cons_self a t),
      ih (fun x hx => h x (List.mem_cons_of_mem _ hx))]

/-- C7: result normalization accepts a flat list of identifier strings
(returned as-is, in order), a list of objects with a `file.path` or `path`
field (extracted in order), and a wrapper whose `values` payload is unwrapped
recursively; any element yielding no identifier is dropped without affecting
the rest, and unrecognized inputs (null, a bare string, an object without a
usable `values` field) yield the empty list. -/
theorem c7_normalize_shapes (ss fps ps : List String)
    (hss : ∀ s ∈ ss, s.isEmpty = false)
    (hfps : ∀ s ∈ fps, s.isEmpty = false)
    (hps : ∀ s ∈ ps, s.isEmpty = false)
    (po : Option String) (vo : Option JVal) (w : JVal) (hw : w.truthy = true)
    (junk : JVal) (hjunk : keepTruthy (itemPath junk) = none)
    (pre post : List JVal) (fp2 p2 : Option String) (s0 : String) :
    parsePageResults (some (.varr (ss.map .vstr))) = ss ∧
    parsePageResults (some (.varr (fps.map (fun s => .vobj (some s) po vo)))) = fps ∧
    parsePageResults (some (.varr (ps.map (fun s => .vobj none (some s) none)))) = ps ∧
    parsePageResults (some (.vobj fp2 p2 (some w))) = parsePageResults (some w) ∧
    parsePageResults (some (.varr (pre ++ junk :: post)))
      = parsePageResults (some (.varr (pre ++ post))) ∧
    parsePageResults none = [] ∧
    parsePageResults (some (.vstr s0)) = [] ∧
    parsePageResults (some (.vobj fp2 p2 none)) = [] := by
  refine ⟨?_, ?_, ?_, ?_, ?_, rfl, ?_, rfl⟩
  · have h1 : parsePageResults (some (.varr (ss.map .vstr)))
        = (ss.map JVal.vstr).filterMap (fun it => keepTruthy (itemPath it)) := rfl
    rw [h1, List.filterMap_map]
    apply filterMap_eq_self_of
    intro s hs
    simp [Function.comp, itemPath, keepTruthy, hss s hs]
  · have h2 : parsePageResults (some (.varr (fps.map (fun s => .vobj (some s) po vo))))
        = (fps.map (fun s => JVal.vobj (some s) po vo)).filterMap
            (fun it => keepTruthy (itemPath it)) := rfl
    rw [h2, List.filterMap_map]
    apply filterMap_eq_self_of
    intro s hs
    simp [Function.comp, itemPath, truthyS, keepTruthy, hfps s hs]
  · have h3 : parsePageResults (some (.varr (ps.map (fun s => .vobj none (some s) none))))
        = (ps.map (fun s => JVal.vobj none (some s) none)).filterMap
            (fun it => keepTruthy (itemPath it)) := rfl
    rw [h3, List.filterMap_map]
    apply filterMap_eq_self_of
    intro s hs
    simp [Function.comp, itemPath, truthyS, keepTruthy, hps s hs]
  · simp [parsePageResults, parseVal, JVal.truthy, hw]
  · simp [parsePageResults, parseVal, JVal.truthy, List.filterMap_append,
      List.filterMap_cons, hjunk]
  · cases h : s0.isEmpty <;> simp [parsePageResults, JVal.truthy, parseVal, h]

/-- C7, witness: concrete representatives of every accepted shape. -/
theorem c7_normalize_shapes_witness :
    ((∀ s ∈ ["a.md", "b.md"], s.isEmpty = false) ∧
      (∀ s ∈ ["c.md"], s.isEmpty = false) ∧
      (∀ s ∈ ["d.md"], s.isEmpty = false) ∧
      (JVal.varr [.vstr "e.md"]).truthy = true ∧
      keepTruthy (itemPath (.vobj none none none)) = none) ∧
    (parsePageResults (some (.varr (["a.md", "b.md"].map .vstr))) = ["a.md", "b.md"] ∧
      parsePageResults (some (.varr (["c.md"].map (fun s => .vobj (some s) (some "x") none))))
        = ["c.md"] ∧
      parsePageResults (some (.varr (["d.md"].map (fun s => .vobj none (some s) none))))
        = ["d.md"] ∧
      parsePageResults (some (.vobj none none (some (.varr [.vstr "e.md"]))))
        = parsePageResults (some (.varr [.vstr "e.md"])) ∧
      parsePageResults (some (.varr ([.vstr "f.md"] ++ .vobj none none none :: [.vstr "g.md"])))
        = parsePageResults (some (.varr ([.vstr "f.md"] ++ [.vstr "g.md"]))) ∧
      parsePageResults none = [] ∧
      parsePageResults (some (.vstr "zz")) = [] ∧
      parsePageResults (some (.vobj none none none)) = []) :=
  ⟨⟨by decide, by decide, by decide, by decide, by decide⟩,
   c7_normalize_shapes ["a.md", "b.md"] ["c.md"] ["d.md"]
     (by decide) (by decide) (by decide) (some "x") none (.varr [.vstr "e.md"]) (by decide)
     (.vobj none none none) (by decide) [.vstr "f.md"] [.vstr "g.md"] none none "zz"⟩

/-- C8: loading one card yields null exactly when the document has no
frontmatter block at all (stated for an arbitrary document `d0`, metadata or
not), and a metadata-less document is skipped without disturbing the rest of
a batch; a document whose frontmatter lacks `status` is still loaded (its
card's status is undefined, i.e. the frontmatter's own `status` lookup);
loading many returns the successfully loaded cards in input order, skipping
the null results. -/
theorem c8_load_cards (d0 d : Doc) (fm : CardMetadata) (hfm : d.frontmatter = some fm)
    (ds : List Doc) :
    (loadCard d0 = none ↔ d0.frontmatter = none) ∧
    (d0.frontmatter = none → loadCards (d0 :: ds) = loadCards ds) ∧
    (∃ c, loadCard d = some c ∧ c.metadata.status = fm.status) ∧
    loadCards ds = ds.filterMap loadCard := by
  refine ⟨?_, ?_, ?_, loadCards_eq_filterMap ds⟩
  · unfold loadCard getCardMetadata
    cases hf : d0.frontmatter <;> simp
  · intro h0
    have hnone : loadCard d0 = none := by
      unfold loadCard getCardMetadata
      rw [h0]
    simp [loadCards, hnone]
  · unfold loadCard getCardMetadata
    rw [hfm]
    exact ⟨_, rfl, rfl⟩

/-- C8, witness: a document with no metadata block loads as null and is
skipped by `loadCards`; a document with metadata but no `status` field is
loaded with an undefined status. -/
theorem c8_load_cards_witness :
    (⟨"n.md", "n", some [("priority", "high")], ""⟩ : Doc).frontmatter
      = some [("priority", "high")] ∧
    ((loadCard ⟨"x.md", "x", none, ""⟩ = none ↔
        (⟨"x.md", "x", none, ""⟩ : Doc).frontmatter = none) ∧
      ((⟨"x.md", "x", none, ""⟩ : Doc).frontmatter = none →
        loadCards [⟨"x.md", "x", none, ""⟩, ⟨"n.md", "n", some [("priority", "high")], ""⟩]
          = loadCards [⟨"n.md", "n", some [("priority", "high")], ""⟩]) ∧
      (∃ c, loadCard ⟨"n.md", "n", some [("priority", "high")], ""⟩ = some c ∧
        c.metadata.status = CardMetadata.status [("priority", "high")]) ∧
      loadCards [⟨"n.md", "n", some [("priority", "high")], ""⟩]
        = [(⟨"n.md", "n", some [("priority", "high")], ""⟩ : Doc)].filterMap loadCard) :=
  ⟨rfl, c8_load_cards ⟨"x.md", "x", none, ""⟩ ⟨"n.md", "n", some [("priority", "high")], ""⟩
    [("priority", "high")] rfl [⟨"n.md", "n", some [("priority", "high")], ""⟩]⟩

theorem parseBoardConfig_some (fm : BoardFrontmatter) (hb : fm.type = some "kanban-board") :
    parseBoardConfig (some fm) = some
      { type := "kanban-board"
        boardId := jsOrStr fm.boardId ""
        columns := (fm.columns.getD []).map (fun col =>
          { name := jsOrStr col.name "Unnamed"
            status := jsOrStr col.status ""
            color := col.color
            limit := col.limit
            collapsed := col.collapsed.getD false })
        cardTemplate := fm.cardTemplate
        autoRefresh := fm.autoRefresh.getD true
        refreshInterval := fm.refreshInterval.getD 30 } := by
  have hb2 : isBoardFile (some fm) = true := by simp [isBoardFile, hb]
  simp [parseBoardConfig, hb2]

/-- C9: board-config parsing returns null exactly when the metadata block is
not a board document (`type` is not the `"kanban-board"` sentinel); for a
board document a missing `columns` field normalizes to the empty list, and
each raw column entry defaults `name` to the `"Unnamed"` placeholder when
absent, `status` to the empty string, and `collapsed` to `false`. -/
theorem c9_parse_board_config (cache : Option BoardFrontmatter) (fm : BoardFrontmatter)
    (hty : fm.type = some "kanban-board") :
    (parseBoardConfig cache = none ↔ isBoardFile cache = false) ∧
    (fm.columns = none → ∃ cfg, parseBoardConfig (some fm) = some cfg ∧ cfg.columns = []) ∧
    (∀ cols, fm.columns = some cols →
      ∃ cfg, parseBoardConfig (some fm) = some cfg ∧
        cfg.columns = cols.map (fun col =>
          { name := jsOrStr col.name "Unnamed"
            status := jsOrStr col.status ""
            color := col.color
            limit := col.limit
            collapsed := col.collapsed.getD false })) := by
  refine ⟨?_, ?_, ?_⟩
  · cases cache with
    | none => simp [parseBoardConfig, isBoardFile]
    | some fm2 =>
      cases hb : isBoardFile (some fm2) with
      | false => simp [parseBoardConfig, hb]
      | true =>
        have hty2 : fm2.type = some "kanban-board" := by
          simpa [isBoardFile] using hb
        rw [parseBoardConfig_some fm2 hty2]
        simp [hb]
  · intro hcols
    exact ⟨_, parseBoardConfig_some fm hty, by simp [hcols]⟩
  · intro cols hcols
    exact ⟨_, parseBoardConfig_some fm hty, by simp [hcols]⟩

/-- C9, witness: a board frontmatter with one bare raw column and no
defaults filled in. -/
theorem c9_parse_board_config_witness :
    (⟨some "kanban-board", none, some [⟨none, none, none, none, none⟩], none, none, none⟩
        : BoardFrontmatter).type = some "kanban-board" ∧
    ((parseBoardConfig (some ⟨some "kanban-board", none,
        some [⟨none, none, none, none, none⟩], none, none, none⟩) = none ↔
      isBoardFile (some (⟨some "kanban-board", none,
        some [⟨none, none, none, none, none⟩], none, none, none⟩ : BoardFrontmatter)) = false) ∧
      ((⟨some "kanban-board", none, some [⟨none, none, none, none, none⟩], none, none, none⟩
          : BoardFrontmatter).columns = none →
        ∃ cfg, parseBoardConfig (some ⟨some "kanban-board", none,
          some [⟨none, none, none, none, none⟩], none, none, none⟩) = some cfg ∧
          cfg.columns = []) ∧
      (∀ cols, (⟨some "kanban-board", none, some [⟨none, none, none, none, none⟩],
          none, none, none⟩ : BoardFrontmatter).columns = some cols →
        ∃ cfg, parseBoardConfig (some ⟨some "kanban-board", none,
          some [⟨none, none, none, none, none⟩], none, none, none⟩) = some cfg ∧
          cfg.columns = cols.map (fun col =>
            { name := jsOrStr col.name "Unnamed"
              status := jsOrStr col.status ""
              color := col.color
              limit := col.limit
              collapsed := col.collapsed.getD false }))) :=
  ⟨rfl, c9_parse_board_config
    (some ⟨some "kanban-board", none, some [⟨none, none, none, none, none⟩], none, none, none⟩)
    ⟨some "kanban-board", none, some [⟨none, none, none, none, none⟩], none, none, none⟩ rfl⟩

/-- C10: validation examines only the columns — a config whose columns are a
non-empty list of columns with non-empty names and statuses validates with an
empty error list whatever its boardId is; validation output is independent of
the boardId field (including an absent one), and so is the grouping step of
materialization. -/
theorem c10_boardId_unchecked (config : BoardConfig) (cards : List CardData)
    (h1 : config.columns ≠ [])
    (h2 : ∀ col ∈ config.columns, col.name ≠ "" ∧ col.status ≠ "") :
    validateBoardConfig (toValInput config) = { valid := true, errors := [] } ∧
    (∀ b1 b2 : Option String, ∀ cs : Option (List ValCol),
      validateBoardConfig { boardId := b1, columns := cs }
        = validateBoardConfig { boardId := b2, columns := cs }) ∧
    (∀ bid : String,
      groupCards { config with boardId := bid } cards = groupCards config cards) := by
  refine ⟨?_, fun b1 b2 cs => rfl, fun bid => rfl⟩
  have h3 : ∀ col ∈ config.columns.map (fun c => (⟨some c.name, some c.status⟩ : ValCol)),
      truthyS col.name = true ∧ truthyS col.status = true := by
    intro col hcol
    obtain ⟨c, hcmem, rfl⟩ := List.mem_map.mp hcol
    obtain ⟨hn, hs⟩ := h2 c hcmem
    constructor
    · simp only [truthyS, Bool.not_eq_true']
      exact Bool.eq_false_iff.mpr (fun hb => hn ((String.isEmpty_iff c.name).mp hb))
    · simp only [truthyS, Bool.not_eq_true']
      exact Bool.eq_false_iff.mpr (fun hb => hs ((String.isEmpty_iff c.status).mp hb))
  have he3 := columnErrors_flatten_nil 0
    (config.columns.map (fun c => (⟨some c.name, some c.status⟩ : ValCol))) h3
  rcases hc : config.columns with _ | ⟨c0, ct⟩
  · exact absurd hc h1
  · rw [hc] at he3
    simp only [List.map_cons] at he3
    unfold validateBoardConfig toValInput
    rw [hc]
    simp only [List.map_cons, List.enum]
    rw [he3]
    rfl

/-- A valid two-column board whose boardId is empty. -/
def cfgNoId : BoardConfig := ⟨"kanban-board", "", [colTodo, colDone], none, true, 30⟩

/-- C10, witness: a board with an empty boardId still validates cleanly, and
neither validation nor grouping depends on the boardId. -/
theorem c10_boardId_unchecked_witness :
    (cfgNoId.columns ≠ [] ∧
      ∀ col ∈ cfgNoId.columns, col.name ≠ "" ∧ col.status ≠ "") ∧
    (validateBoardConfig (toValInput cfgNoId) = { valid := true, errors := [] } ∧
      (∀ b1 b2 : Option String, ∀ cs : Option (List ValCol),
        validateBoardConfig { boardId := b1, columns := cs }
          = validateBoardConfig { boardId := b2, columns := cs }) ∧
      (∀ bid : String,
        groupCards { cfgNoId with boardId := bid } [cardT] = groupCards cfgNoId [cardT])) :=
  ⟨⟨by decide, by decide⟩, c10_boardId_unchecked cfgNoId [cardT] (by decide) (by decide)⟩
